import Mathlib

/-!
Verification of the core decision logic of the thermia_exporter repository:
a shallow embedding of the register decoder / mapper, the status
arbitration, the alert reconciliation, the token-cache expiry rule and the
browser-flow authentication control flow, together with theorems checking
the specification's claims against that embedding.

Modelling conventions:
* Go float64 register values are modelled as exact rationals; at every
  concrete input appearing in a claim the float64 computation and the
  rational computation produce the same result.
* Go int(x) conversion truncates toward zero; truncQ below does the same
  on rationals.
* Go map[string]float64 results are modelled as association lists queried
  with List.lookup, and map[string]bool seen-sets as lists queried by
  membership; both are faithful because only insertion and lookup are used.
* Go strings.ToUpper / strings.EqualFold are modelled by per-character
  ASCII upper-casing; every label that occurs in the decoder is ASCII.
-/

namespace Thermia

/-- Truncation toward zero on rationals, the semantics of Go's int(x)
conversion applied to a float64 value: floor for non-negative arguments,
and minus the floor of the negation for negative ones. -/
def truncQ (q : ℚ) : ℤ := if 0 ≤ q then ⌊q⌋ else -⌊-q⌋

/-- From config.go / client.go, round1: multiply by 10, add 0.5, convert
to int (truncation toward zero), divide by 10.0. -/
def round1 (f : ℚ) : ℚ := ((truncQ (f * 10 + 5/10) : ℤ) : ℚ) / 10

/-- The fixed-epsilon integer conversion used throughout the mapper:
int(v + 0.00001), from modes.go line 24, ExtractBitmaskStatuses line 47,
ExtractHotWaterSwitches and ExtractOperationalTime. -/
def toIntCode (v : ℚ) : ℤ := truncQ (v + 1/100000)

-- Register name constants, from the mapper constants file.

def RegOperationMode : String := "REG_OPERATIONMODE"

def RegOperationalStatusPriorityBitmask : String :=
  "REG_OPERATIONAL_STATUS_PRIORITY_BITMASK"

def CompStatus : String := "COMP_STATUS"

def CompStatusAtec : String := "COMP_STATUS_ATEC"

def CompStatusItec : String := "COMP_STATUS_ITEC"

def CompPowerStatus : String := "COMP_POWER_STATUS"

def RegHotWaterBoost : String := "REG__HOT_WATER_BOOST"

def RegHotWaterStatus : String := "REG_HOT_WATER_STATUS"

def OperationalStatusCandidates : List String :=
  [RegOperationalStatusPriorityBitmask, CompStatus, CompStatusAtec, CompStatusItec]

def PowerStatusCandidates : List String := [CompPowerStatus]

/-- A ValueEntry from types.go: label, integer code, visibility flag,
read-only flag. -/
structure ValueEntry where
  Name : String
  Value : ℤ
  Visible : Bool
  Readonly : Bool
deriving DecidableEq, Repr

/-- A GroupItem (register item) from types.go; the float64 RegisterValue
pointer becomes an optional rational. -/
structure GroupItem where
  RegisterName : String
  RegisterValue : Option ℚ
  IsReadOnly : Bool
  ValueNames : List ValueEntry
deriving DecidableEq, Repr

/-- StatusData from types.go; the Go zero value has both slices nil,
modelled as empty lists. -/
structure StatusData where
  Running : List String
  Available : List String
deriving DecidableEq, Repr

/-- OperationModeData from types.go. -/
structure OperationModeData where
  Current : String
  Available : List String
  ReadOnly : Bool
deriving DecidableEq, Repr

/-- An Event from types.go (only the fields the mapper reads). -/
structure Event where
  EventTitle : String
  Severity : String
  OccurredWhen : String
deriving DecidableEq, Repr

/-- Go strings.HasPrefix, expressed on the character lists underlying the
strings so that concrete instances evaluate inside the kernel. -/
def strStartsWith (s p : String) : Bool := p.data.isPrefixOf s.data

/-- Drop the first n characters of a string (every string in the decoder
is ASCII, so byte counts and character counts agree with the Go code). -/
def strDrop (s : String) (n : Nat) : String := String.mk (s.data.drop n)

/-- Go strings.TrimPrefix as used in the mapper: drop the given leading
string when present. -/
def trimOne (p s : String) : String :=
  if strStartsWith s p then strDrop s p.data.length else s

/-- trimStatus from the mapper: strip the first matching of the two
status label markers REG_VALUE_ and COMP_VALUE_. -/
def trimStatus (s : String) : String :=
  if strStartsWith s "REG_VALUE_" then strDrop s "REG_VALUE_".data.length
  else if strStartsWith s "COMP_VALUE_" then strDrop s "COMP_VALUE_".data.length
  else s

/-- trimMode from modes.go: strip REG_VALUE_OPERATION_MODE_, then
REG_VALUE_, sequentially. -/
def trimMode (s : String) : String :=
  trimOne "REG_VALUE_" (trimOne "REG_VALUE_OPERATION_MODE_" s)

/-- Go strings.ToUpper restricted to ASCII, which covers every status
label handled by the collector. -/
def upString (s : String) : String := String.mk (s.data.map Char.toUpper)

/-- Go strings.EqualFold restricted to ASCII: case-insensitive equality. -/
def eqFold (a b : String) : Bool := upString a == upString b

-- ## Claim C3 and C4: the two numeric conversion helpers

/-- Claim C3, counterexample: the claim states round1(-2.34) = -2.3, but
under the int(f*10+0.5)/10 formula the value is -2.2 (truncation toward
zero of -22.9 gives -22); the float64 computation agrees, as does the
repository's own test expecting round1(-2.3) = -2.2. -/
theorem round1_neg_claim_false : ¬ (round1 (-2.34) = -2.3) := by
  norm_num [round1, truncQ]

/-- Claim C3, amended: round1 computes int(f*10+0.5)/10, so
round1(22.53) = 22.5, and for negative inputs round1(-2.34) = -2.2
(the +0.5 offset followed by truncation toward zero shifts negative
values up, not down). -/
theorem round1_formula :
    (∀ f : ℚ, round1 f = ((truncQ (f * 10 + 5/10) : ℤ) : ℚ) / 10) ∧
    round1 (22.53) = 22.5 ∧ round1 (-2.34) = -2.2 :=
  ⟨fun _ => rfl, by norm_num [round1, truncQ], by norm_num [round1, truncQ]⟩

-- ## The register decoder (mapper package)

/-- The register search of ExtractBitmaskStatuses: for each candidate name
in priority order, take the first item whose RegisterName matches. -/
def findRegister (items : List GroupItem) : List String → Option GroupItem
  | [] => none
  | rn :: rest =>
    match items.find? (fun it => it.RegisterName == rn) with
    | some it => some it
    | none => findRegister items rest

/-- ExtractBitmaskStatuses from the mapper: available is every visible
label (trimmed); running is every visible label whose integer code has a
bit in common with the epsilon-truncated register value; a missing value
yields an empty running list. -/
def ExtractBitmaskStatuses (items : List GroupItem) (registerNames : List String) :
    StatusData :=
  match findRegister items registerNames with
  | none => { Running := [], Available := [] }
  | some m =>
    let avail := (m.ValueNames.filter (fun vn => vn.Visible)).map
      (fun vn => trimStatus vn.Name)
    match m.RegisterValue with
    | none => { Running := [], Available := avail }
    | some v =>
      let val := toIntCode v
      let run := (m.ValueNames.filter
          (fun vn => vn.Visible && Int.land val vn.Value != 0)).map
        (fun vn => trimStatus vn.Name)
      { Running := run, Available := avail }

/-- ExtractOperationMode from modes.go: on the first REG_OPERATIONMODE
item, available is every visible label (mode-trimmed) and current is the
label whose code equals the epsilon-truncated register value. -/
def ExtractOperationMode (items : List GroupItem) : OperationModeData :=
  match items.find? (fun it => it.RegisterName == RegOperationMode) with
  | none => { Current := "", Available := [], ReadOnly := false }
  | some it =>
    let avail := (it.ValueNames.filter (fun vn => vn.Visible)).map
      (fun vn => trimMode vn.Name)
    let current :=
      match it.RegisterValue with
      | none => ""
      | some v =>
        match it.ValueNames.find? (fun vn => vn.Value == toIntCode v) with
        | some vn => trimMode vn.Name
        | none => ""
    { Current := current, Available := avail, ReadOnly := it.IsReadOnly }

/-- ExtractHotWaterSwitches from the mapper: scan all items; the last
REG_HOT_WATER_STATUS item with a value sets the switch state and the last
REG__HOT_WATER_BOOST item with a value sets the boost state, both through
the epsilon truncation. -/
def ExtractHotWaterSwitches (items : List GroupItem) : Option ℤ × Option ℤ :=
  items.foldl
    (fun acc it =>
      if it.RegisterName == RegHotWaterBoost then
        match it.RegisterValue with
        | some v => (acc.1, some (toIntCode v))
        | none => acc
      else if it.RegisterName == RegHotWaterStatus then
        match it.RegisterValue with
        | some v => (some (toIntCode v), acc.2)
        | none => acc
      else acc)
    (none, none)

def RegOperTimeCompressor : String := "REG_OPER_TIME_COMPRESSOR"

def RegOperTimeHeating : String := "REG_OPER_TIME_HEATING"

def RegOperTimeHotWater : String := "REG_OPER_TIME_HOT_WATER"

def RegOperTimeImm1 : String := "REG_OPER_TIME_IMM1"

def RegOperTimeImm2 : String := "REG_OPER_TIME_IMM2"

def RegOperTimeImm3 : String := "REG_OPER_TIME_IMM3"

/-- ExtractOperationalTime from the mapper: for each fixed counter name,
the epsilon-truncated value of the first item carrying it, omitted when
absent; the Go result map is rendered as an association list. -/
def ExtractOperationalTime (items : List GroupItem) : List (String × ℤ) :=
  [RegOperTimeCompressor, RegOperTimeHeating, RegOperTimeHotWater,
   RegOperTimeImm1, RegOperTimeImm2, RegOperTimeImm3].filterMap
    (fun k =>
      match items.find? (fun it => it.RegisterName == k && it.RegisterValue.isSome) with
      | some it =>
        match it.RegisterValue with
        | some v => some (k, toIntCode v)
        | none => none
      | none => none)

/-- Claim C4: the epsilon-truncated integer conversion matches the
hand-computed codes 5.0 to 5, 4.99999 to 5 and 4.9 to 4, and the same
conversion is the one feeding the enumeration decoder and the bitmask
decoder (demonstrated on 4.99999, which both decoders treat as code 5). -/
theorem epsilon_truncation_codes :
    toIntCode 5 = 5 ∧ toIntCode (4.99999) = 5 ∧ toIntCode (4.9) = 4 ∧
    (ExtractOperationMode
      [{ RegisterName := RegOperationMode, RegisterValue := some (4.99999),
         IsReadOnly := false,
         ValueNames := [{ Name := "REG_VALUE_OPERATION_MODE_AUTO", Value := 5,
                          Visible := true, Readonly := false }] }]).Current = "AUTO" ∧
    (ExtractBitmaskStatuses
      [{ RegisterName := CompStatus, RegisterValue := some (4.99999),
         IsReadOnly := false,
         ValueNames :=
          [{ Name := "REG_VALUE_A", Value := 1, Visible := true, Readonly := false },
           { Name := "REG_VALUE_B", Value := 2, Visible := true, Readonly := false },
           { Name := "REG_VALUE_C", Value := 4, Visible := true, Readonly := false }] }]
      [CompStatus]).Running = ["A", "C"] := by
  have h5 : toIntCode (4.99999) = 5 := by norm_num [toIntCode, truncQ]
  refine ⟨by norm_num [toIntCode, truncQ], h5, by norm_num [toIntCode, truncQ], ?_, ?_⟩
  · simp [ExtractOperationMode, RegOperationMode, h5, List.find?]
    decide
  · simp [ExtractBitmaskStatuses, findRegister, CompStatus, h5, List.find?]
    decide

/-- The register of the specification's bitmask example: value 5 against
visible codes A:1, B:2, C:4. -/
def bitmaskDemoReg : GroupItem :=
  { RegisterName := CompStatus, RegisterValue := some 5, IsReadOnly := false,
    ValueNames :=
      [{ Name := "REG_VALUE_A", Value := 1, Visible := true, Readonly := false },
       { Name := "REG_VALUE_B", Value := 2, Visible := true, Readonly := false },
       { Name := "REG_VALUE_C", Value := 4, Visible := true, Readonly := false }] }

/-- The bitmask example register with no register value. -/
def bitmaskDemoRegNoValue : GroupItem :=
  { bitmaskDemoReg with RegisterValue := none }

/-- Claim C5: when a candidate register is matched, running is exactly the
visible labels whose code shares a bit with the epsilon-truncated value;
with a missing value running is empty while available still lists the
visible labels; and the spec's example (value 5 against codes A:1, B:2,
C:4) decodes to running = A, C. -/
theorem bitmask_running_exactly_set_bits :
    (∀ (items : List GroupItem) (names : List String) (m : GroupItem),
      findRegister items names = some m →
      (∀ v, m.RegisterValue = some v →
        ∀ l, l ∈ (ExtractBitmaskStatuses items names).Running ↔
          ∃ vn ∈ m.ValueNames, vn.Visible = true ∧
            Int.land (toIntCode v) vn.Value ≠ 0 ∧ trimStatus vn.Name = l) ∧
      (m.RegisterValue = none →
        (ExtractBitmaskStatuses items names).Running = [] ∧
        (ExtractBitmaskStatuses items names).Available =
          (m.ValueNames.filter (fun vn => vn.Visible)).map
            (fun vn => trimStatus vn.Name))) ∧
    (ExtractBitmaskStatuses [bitmaskDemoReg] [CompStatus]).Running = ["A", "C"] := by
  constructor
  · intro items names m hm
    constructor
    · intro v hv l
      simp only [ExtractBitmaskStatuses, hm, hv]
      simp only [List.mem_map, List.mem_filter, Bool.and_eq_true, bne_iff_ne, ne_eq]
      constructor
      · rintro ⟨vn, ⟨hmem, hvis, hbit⟩, htrim⟩
        exact ⟨vn, hmem, hvis, hbit, htrim⟩
      · rintro ⟨vn, hmem, hvis, hbit, htrim⟩
        exact ⟨vn, ⟨hmem, hvis, hbit⟩, htrim⟩
    · intro hv
      simp [ExtractBitmaskStatuses, hm, hv]
  · have h5 : toIntCode 5 = 5 := by norm_num [toIntCode, truncQ]
    simp [ExtractBitmaskStatuses, findRegister, bitmaskDemoReg, CompStatus, h5,
      List.find?]
    decide

/-- Witness for C5: the characterization applied to the example register,
both with its value (membership of A) and with the value removed (running
empty, available intact). -/
theorem bitmask_running_exactly_set_bits_witness :
    ("A" ∈ (ExtractBitmaskStatuses [bitmaskDemoReg] [CompStatus]).Running ↔
      ∃ vn ∈ bitmaskDemoReg.ValueNames, vn.Visible = true ∧
        Int.land (toIntCode 5) vn.Value ≠ 0 ∧ trimStatus vn.Name = "A") ∧
    ((ExtractBitmaskStatuses [bitmaskDemoRegNoValue] [CompStatus]).Running = [] ∧
      (ExtractBitmaskStatuses [bitmaskDemoRegNoValue] [CompStatus]).Available =
        (bitmaskDemoRegNoValue.ValueNames.filter (fun vn => vn.Visible)).map
          (fun vn => trimStatus vn.Name)) :=
  ⟨((bitmask_running_exactly_set_bits.1 [bitmaskDemoReg] [CompStatus]
      bitmaskDemoReg rfl).1 5 rfl "A"),
   ((bitmask_running_exactly_set_bits.1 [bitmaskDemoRegNoValue] [CompStatus]
      bitmaskDemoRegNoValue rfl).2 rfl)⟩

-- ## Temperature readings (C9)

/-- TemperatureData from types.go: twelve optional temperature readings. -/
structure TemperatureData where
  Indoor : Option ℚ := none
  Outdoor : Option ℚ := none
  SupplyLine : Option ℚ := none
  DesiredSupplyLine : Option ℚ := none
  ReturnLine : Option ℚ := none
  BufferTank : Option ℚ := none
  HotWater : Option ℚ := none
  BrineOut : Option ℚ := none
  BrineIn : Option ℚ := none
  Pool : Option ℚ := none
  CoolingTank : Option ℚ := none
  CoolingSupply : Option ℚ := none
deriving DecidableEq, Repr

/-- One unconditional entry of the temperature map: present and rounded
exactly when the reading is present. -/
def tempEntry (k : String) (v : Option ℚ) : List (String × ℚ) :=
  match v with
  | some x => [(k, round1 x)]
  | none => []

/-- The indoor entry of the temperature map, with the sentinel filter of
TemperaturesToMap: present only when the reading is present and below 100. -/
def indoorEntry (v : Option ℚ) : List (String × ℚ) :=
  match v with
  | some x => if x < 100 then [("indoor", round1 x)] else []
  | none => []

/-- TemperaturesToMap from the mapper: the Go string-keyed map rendered as
an association list, with the insertions in source order; only the indoor
reading carries the below-100 sentinel filter. -/
def TemperaturesToMap (t : TemperatureData) : List (String × ℚ) :=
  indoorEntry t.Indoor ++
  tempEntry "outdoor" t.Outdoor ++
  tempEntry "supply_line" t.SupplyLine ++
  tempEntry "desired_supply_line" t.DesiredSupplyLine ++
  tempEntry "return_line" t.ReturnLine ++
  tempEntry "buffer_tank" t.BufferTank ++
  tempEntry "hot_water" t.HotWater ++
  tempEntry "brine_out" t.BrineOut ++
  tempEntry "brine_in" t.BrineIn ++
  tempEntry "pool" t.Pool ++
  tempEntry "cooling_tank" t.CoolingTank ++
  tempEntry "cooling_supply" t.CoolingSupply

theorem lookup_append (k : String) (l1 l2 : List (String × ℚ)) :
    (l1 ++ l2).lookup k = ((l1.lookup k).or (l2.lookup k)) := by
  induction l1 with
  | nil => simp [List.lookup]
  | cons p rest ih =>
    cases hk : (k == p.1) <;> simp [List.lookup, hk, ih]

theorem lookup_tempEntry_self (k : String) (v : Option ℚ) :
    (tempEntry k v).lookup k = v.map round1 := by
  cases v <;> simp [tempEntry, List.lookup]

theorem lookup_tempEntry_ne (k k' : String) (v : Option ℚ) (h : (k == k') = false) :
    (tempEntry k' v).lookup k = none := by
  cases v <;> simp [tempEntry, List.lookup, h]

theorem lookup_indoorEntry_lt (v : ℚ) (h : v < 100) :
    (indoorEntry (some v)).lookup "indoor" = some (round1 v) := by
  simp [indoorEntry, h, List.lookup]

theorem lookup_indoorEntry_ge (v : ℚ) (h : 100 ≤ v) :
    (indoorEntry (some v)).lookup "indoor" = none := by
  simp [indoorEntry, not_lt.mpr h]

theorem lookup_indoorEntry_ne (k : String) (v : Option ℚ) (h : (k == "indoor") = false) :
    (indoorEntry v).lookup k = none := by
  cases v with
  | none => simp [indoorEntry]
  | some x => by_cases hx : x < 100 <;> simp [indoorEntry, hx, List.lookup, h]

/-- Claim C9: an indoor reading below 100 is surfaced (rounded to one
decimal), an indoor reading of 100 or above is dropped from the map,
99.9 is always kept, and none of the other eleven temperature fields
carries this sentinel filter (each is surfaced whenever present). -/
theorem temperaturesToMap_indoor_sentinel :
    (∀ (t : TemperatureData) (v : ℚ), t.Indoor = some v →
      (v < 100 → (TemperaturesToMap t).lookup "indoor" = some (round1 v)) ∧
      (100 ≤ v → (TemperaturesToMap t).lookup "indoor" = none)) ∧
    (∀ (t : TemperatureData) (v : ℚ),
      (t.Outdoor = some v →
        (TemperaturesToMap t).lookup "outdoor" = some (round1 v)) ∧
      (t.SupplyLine = some v →
        (TemperaturesToMap t).lookup "supply_line" = some (round1 v)) ∧
      (t.DesiredSupplyLine = some v →
        (TemperaturesToMap t).lookup "desired_supply_line" = some (round1 v)) ∧
      (t.ReturnLine = some v →
        (TemperaturesToMap t).lookup "return_line" = some (round1 v)) ∧
      (t.BufferTank = some v →
        (TemperaturesToMap t).lookup "buffer_tank" = some (round1 v)) ∧
      (t.HotWater = some v →
        (TemperaturesToMap t).lookup "hot_water" = some (round1 v)) ∧
      (t.BrineOut = some v →
        (TemperaturesToMap t).lookup "brine_out" = some (round1 v)) ∧
      (t.BrineIn = some v →
        (TemperaturesToMap t).lookup "brine_in" = some (round1 v)) ∧
      (t.Pool = some v →
        (TemperaturesToMap t).lookup "pool" = some (round1 v)) ∧
      (t.CoolingTank = some v →
        (TemperaturesToMap t).lookup "cooling_tank" = some (round1 v)) ∧
      (t.CoolingSupply = some v →
        (TemperaturesToMap t).lookup "cooling_supply" = some (round1 v))) ∧
    (∀ t : TemperatureData, t.Indoor = some (99.9) →
      (TemperaturesToMap t).lookup "indoor" = some (99.9)) := by
  have hsimp : ∀ (t : TemperatureData) (k : String),
      (k == "indoor") = false →
      (TemperaturesToMap t).lookup k =
        ((tempEntry "outdoor" t.Outdoor ++
          tempEntry "supply_line" t.SupplyLine ++
          tempEntry "desired_supply_line" t.DesiredSupplyLine ++
          tempEntry "return_line" t.ReturnLine ++
          tempEntry "buffer_tank" t.BufferTank ++
          tempEntry "hot_water" t.HotWater ++
          tempEntry "brine_out" t.BrineOut ++
          tempEntry "brine_in" t.BrineIn ++
          tempEntry "pool" t.Pool ++
          tempEntry "cooling_tank" t.CoolingTank ++
          tempEntry "cooling_supply" t.CoolingSupply).lookup k) := by
    intro t k hk
    simp [TemperaturesToMap, lookup_append, lookup_indoorEntry_ne _ _ hk]
  refine ⟨?_, ?_, ?_⟩
  · intro t v hv
    refine ⟨fun hlt => ?_, fun hge => ?_⟩
    · simp [TemperaturesToMap, lookup_append, hv, lookup_indoorEntry_lt _ hlt]
    · simp [TemperaturesToMap, lookup_append, hv, lookup_indoorEntry_ge _ hge,
        lookup_tempEntry_ne]
  · intro t v
    refine ⟨?_, ?_, ?_, ?_, ?_, ?_, ?_, ?_, ?_, ?_, ?_⟩ <;>
      intro hv <;>
      rw [hsimp t _ (by decide)] <;>
      simp [lookup_append, lookup_tempEntry_ne, lookup_tempEntry_self, hv]
  · intro t hv
    have h1 : (99.9 : ℚ) < 100 := by norm_num
    have := lookup_indoorEntry_lt (v := (99.9 : ℚ)) h1
    have hr : round1 (99.9 : ℚ) = 99.9 := by norm_num [round1, truncQ]
    simp [TemperaturesToMap, lookup_append, hv, this, hr]

/-- Witness for C9: a data set with an out-of-range indoor reading of 150
(dropped), one with 99.9 (kept), and a negative outdoor reading that is
not filtered. -/
theorem temperaturesToMap_indoor_sentinel_witness :
    (TemperaturesToMap { Indoor := some 150 }).lookup "indoor" = none ∧
    (TemperaturesToMap { Indoor := some (99.9) }).lookup "indoor" = some (99.9) ∧
    (TemperaturesToMap { Outdoor := some (150) }).lookup "outdoor" =
      some (round1 150) :=
  ⟨(temperaturesToMap_indoor_sentinel.1 { Indoor := some 150 } 150 rfl).2
      (by norm_num),
   temperaturesToMap_indoor_sentinel.2.2 { Indoor := some (99.9) } rfl,
   (temperaturesToMap_indoor_sentinel.2.1 { Outdoor := some 150 } 150).1 rfl⟩

-- ## Status arbitration (C2, C10)

/-- The fixed priority list of pickCurrentStatus, highest first. -/
def priorityList : List String :=
  ["STATUS_LEGIONELLA", "STATUS_HOTWATER", "STATUS_HEAT", "STATUS_COOL",
   "STATUS_PASSIVE_COOL", "STATUS_POOL", "STATUS_STANDBY", "STATUS_NO_DEMAND",
   "OPERATION_MODE_OFF"]

/-- The NO_DEMAND suppression of pickCurrentStatus: remove
STATUS_NO_DEMAND (case-insensitively) from the running list unless that
would empty it. -/
def filteredRunning (running : List String) : List String :=
  let f := running.filter (fun s => !(eqFold s "STATUS_NO_DEMAND"))
  if f.isEmpty then running else f

/-- pickCurrentStatus from collector.go: empty answer when nothing is
known, otherwise the first priority label present (case-insensitively) in
the filtered running list, else the first filtered running label, else the
first available label. The Go upper-cased set membership is modelled as
list membership of upper-cased strings. -/
def pickCurrentStatus (running available : List String) : String :=
  if running.isEmpty && available.isEmpty then ""
  else
    match priorityList.find?
        (fun p => ((filteredRunning running).map upString).contains p) with
    | some p => p
    | none =>
      match filteredRunning running with
      | f :: _ => f
      | [] =>
        match available with
        | a :: _ => a
        | [] => ""

/-- The specification's four-step reference arbitration, transcribed from
its words: suppress NO_DEMAND unless alone, walk the priority list with a
case-insensitive match, else first filtered running label, else first
available label, else empty. -/
def specPickCurrentStatus (running available : List String) : String :=
  match priorityList.find?
      (fun p => (filteredRunning running).any (fun s => eqFold s p)) with
  | some p => p
  | none =>
    match filteredRunning running with
    | f :: _ => f
    | [] =>
      match available with
      | a :: _ => a
      | [] => ""

theorem upString_of_priority : ∀ p ∈ priorityList, upString p = p := by decide

theorem contains_map_upString (l : List String) (p : String) (hp : upString p = p) :
    ((l.map upString).contains p) = l.any (fun s => eqFold s p) := by
  induction l with
  | nil => rfl
  | cons x xs ih =>
    have hbeq : (p == upString x) = (upString x == p) := by
      by_cases hpe : p = upString x
      · rw [hpe]
      · rw [beq_eq_false_iff_ne.mpr hpe, beq_eq_false_iff_ne.mpr (Ne.symm hpe)]
    rw [List.map_cons, List.contains_cons, List.any_cons, ih, hbeq,
      show eqFold x p = (upString x == upString p) from rfl, hp]

theorem findCongr {α : Type} (p q : α → Bool) :
    ∀ l : List α, (∀ x ∈ l, p x = q x) → l.find? p = l.find? q := by
  intro l
  induction l with
  | nil => intro _; rfl
  | cons x xs ih =>
    intro h
    have hx := h x (List.mem_cons_self x xs)
    cases hq : q x with
    | true =>
      rw [List.find?_cons_of_pos _ (by rw [hx, hq]), List.find?_cons_of_pos _ hq]
    | false =>
      rw [List.find?_cons_of_neg _ (by simp [hx, hq]), List.find?_cons_of_neg _ (by simp [hq]),
        ih (fun y hy => h y (List.mem_cons_of_mem _ hy))]

theorem pickSpecEq (r a : List String) :
    pickCurrentStatus r a = specPickCurrentStatus r a := by
  by_cases h : (r.isEmpty && a.isEmpty) = true
  · obtain ⟨hr, ha⟩ := Bool.and_eq_true_iff.mp h
    rw [List.isEmpty_iff.mp hr, List.isEmpty_iff.mp ha]
    rfl
  · unfold pickCurrentStatus specPickCurrentStatus
    rw [if_neg h]
    rw [findCongr (fun p => ((filteredRunning r).map upString).contains p)
      (fun p => (filteredRunning r).any (fun s => eqFold s p)) priorityList
      (fun p hp => contains_map_upString _ p (upString_of_priority p hp))]

/-- Claim C2: pickCurrentStatus coincides with the specification's
four-step reference arbitration on every pair of running/available lists,
and in particular a lone NO_DEMAND survives, NO_DEMAND is suppressed next
to HEAT, and COOL beats POOL by priority regardless of encounter order. -/
theorem pickCurrentStatus_matches_spec :
    (∀ running available : List String,
      pickCurrentStatus running available = specPickCurrentStatus running available) ∧
    pickCurrentStatus ["STATUS_NO_DEMAND"] ["STATUS_NO_DEMAND"] =
      "STATUS_NO_DEMAND" ∧
    pickCurrentStatus ["STATUS_HEAT", "STATUS_NO_DEMAND"]
      ["STATUS_HEAT", "STATUS_NO_DEMAND"] = "STATUS_HEAT" ∧
    pickCurrentStatus ["STATUS_POOL", "STATUS_COOL"]
      ["STATUS_POOL", "STATUS_COOL"] = "STATUS_COOL" :=
  ⟨pickSpecEq, by decide, by decide, by decide⟩

/-- Claim C10: whenever the filtered running list contains a priority
label under case-insensitive comparison, pickCurrentStatus returns a
canonical (upper-case) member of the priority list, not the original-cased
running element. -/
theorem pickCurrentStatus_returns_canonical (r a : List String) (p : String)
    (hp : p ∈ priorityList)
    (hmatch : (filteredRunning r).any (fun s => eqFold s p) = true) :
    pickCurrentStatus r a ∈ priorityList ∧
    upString (pickCurrentStatus r a) = pickCurrentStatus r a := by
  have hr : r ≠ [] := by
    intro hnil
    rw [hnil] at hmatch
    simp [filteredRunning] at hmatch
  have hcond : (r.isEmpty && a.isEmpty) = false := by
    cases r with
    | nil => exact absurd rfl hr
    | cons x xs => rfl
  have hfind : (priorityList.find?
      (fun q => ((filteredRunning r).map upString).contains q)).isSome := by
    rw [findCongr (fun q => ((filteredRunning r).map upString).contains q)
      (fun q => (filteredRunning r).any (fun s => eqFold s q)) priorityList
      (fun q hq => contains_map_upString _ q (upString_of_priority q hq))]
    exact List.find?_isSome.mpr ⟨p, hp, hmatch⟩
  obtain ⟨q, hq⟩ := Option.isSome_iff_exists.mp hfind
  have hqmem : q ∈ priorityList := List.mem_of_find?_eq_some hq
  have hpick : pickCurrentStatus r a = q := by
    unfold pickCurrentStatus
    rw [if_neg (by rw [hcond]; exact Bool.false_ne_true), hq]
  rw [hpick]
  exact ⟨hqmem, upString_of_priority q hqmem⟩

/-- Witness for C10: a lower-cased running label status_heat is answered
with the canonical STATUS_HEAT constant from the priority list. -/
theorem pickCurrentStatus_returns_canonical_witness :
    pickCurrentStatus ["status_heat"] [] ∈ priorityList ∧
    upString (pickCurrentStatus ["status_heat"] []) =
      pickCurrentStatus ["status_heat"] [] :=
  pickCurrentStatus_returns_canonical ["status_heat"] [] "STATUS_HEAT"
    (by decide) (by decide)

-- ## Alert reconciliation (C7)

/-- ASCII whitespace, the characters Go strings.TrimSpace strips from the
event titles in this data set. -/
def isSpaceChar (c : Char) : Bool := c == ' ' || c == '\t' || c == '\n' || c == '\r'

/-- Go strings.TrimSpace on ASCII titles: drop whitespace from both ends. -/
def strTrim (s : String) : String :=
  String.mk (((s.data.dropWhile isSpaceChar).reverse.dropWhile isSpaceChar).reverse)

/-- The loop of uniqueTitles from the mapper, with the Go seen-map carried
as a list of already-emitted titles. -/
def uniqueTitlesAux (seen : List String) : List Event → List String
  | [] => []
  | e :: es =>
    if strTrim e.EventTitle == "" || seen.contains (strTrim e.EventTitle) then
      uniqueTitlesAux seen es
    else strTrim e.EventTitle :: uniqueTitlesAux (strTrim e.EventTitle :: seen) es

/-- uniqueTitles from the mapper: unique trimmed non-empty titles, first
occurrence first. -/
def uniqueTitles (events : List Event) : List String := uniqueTitlesAux [] events

/-- difference from the mapper: the elements of all that are not in
active, in order. -/
def differenceTitles (allTitles activeTitles : List String) : List String :=
  allTitles.filter (fun t => !(activeTitles.contains t))

/-- ExtractAlerts from the mapper: the unique active titles, and the
unique overall titles minus the active ones. -/
def ExtractAlerts (activeEvents allEvents : List Event) :
    List String × List String :=
  (uniqueTitles activeEvents,
   differenceTitles (uniqueTitles allEvents) (uniqueTitles activeEvents))

/-- The specification's reduction, written from its words: keep the first
occurrence of every title, preserving insertion order. -/
def dedupKeepFirst : List String → List String
  | [] => []
  | x :: xs => x :: dedupKeepFirst (xs.filter (fun y => y != x))
termination_by l => l.length
decreasing_by
  simp only [List.length_cons]
  exact Nat.lt_succ_of_le (List.length_filter_le _ _)

theorem filter_not_contains_cons (t : String) (seen : List String)
    (l : List String) :
    l.filter (fun y => !((t :: seen).contains y)) =
      (l.filter (fun y => !(seen.contains y))).filter (fun y => y != t) := by
  rw [List.filter_filter]
  apply List.filter_congr
  intro y _
  simp only [List.contains_cons, bne]
  cases hyt : y == t <;> cases hys : seen.contains y <;> rfl

theorem uniqueTitlesAux_eq (es : List Event) :
    ∀ seen : List String,
      uniqueTitlesAux seen es =
        dedupKeepFirst (((es.map (fun e => strTrim e.EventTitle)).filter
            (fun t => t != "")).filter (fun t => !(seen.contains t))) := by
  induction es with
  | nil => intro seen; simp [uniqueTitlesAux, dedupKeepFirst]
  | cons e es ih =>
    intro seen
    by_cases ht : strTrim e.EventTitle = ""
    · rw [uniqueTitlesAux, if_pos (by rw [ht]; simp), ih seen, List.map_cons,
        List.filter_cons_of_neg (by simp [ht])]
    · by_cases hseen : seen.contains (strTrim e.EventTitle) = true
      · rw [uniqueTitlesAux, if_pos (by rw [hseen]; simp), ih seen, List.map_cons,
          List.filter_cons_of_pos (by simp [ht]),
          List.filter_cons_of_neg (by rw [hseen]; decide)]
      · have hsf : seen.contains (strTrim e.EventTitle) = false :=
          Bool.eq_false_iff.mpr hseen
        rw [uniqueTitlesAux, if_neg (by rw [hsf]; simp [ht]), ih, List.map_cons,
          List.filter_cons_of_pos (by simp [ht]),
          List.filter_cons_of_pos (by rw [hsf]; decide),
          filter_not_contains_cons]
        simp only [dedupKeepFirst]

/-- Claim C7: each event list reduces to its unique, trimmed, non-empty
titles with the first occurrence winning and order preserved (stated as
equality with the order-preserving first-occurrence deduplication of the
trimmed, non-empty title sequence); archived is the set-difference of all
titles minus active titles (kept in all-title order); and the spec's
example reconciles to active = [Low pressure], archived = [Sensor fault]. -/
theorem alerts_unique_trimmed_difference :
    (∀ events : List Event,
      uniqueTitles events =
        dedupKeepFirst ((events.map (fun e => strTrim e.EventTitle)).filter
          (fun t => t != ""))) ∧
    (∀ activeEvents allEvents : List Event,
      (ExtractAlerts activeEvents allEvents).1 = uniqueTitles activeEvents ∧
      ∀ t, t ∈ (ExtractAlerts activeEvents allEvents).2 ↔
        (t ∈ uniqueTitles allEvents ∧ t ∉ uniqueTitles activeEvents)) ∧
    ExtractAlerts
      [{ EventTitle := "Low pressure", Severity := "", OccurredWhen := "" }]
      [{ EventTitle := "Low pressure", Severity := "", OccurredWhen := "" },
       { EventTitle := "Low pressure", Severity := "", OccurredWhen := "" },
       { EventTitle := "Sensor fault", Severity := "", OccurredWhen := "" }] =
      (["Low pressure"], ["Sensor fault"]) := by
  refine ⟨?_, ?_, by decide⟩
  · intro events
    rw [uniqueTitles, uniqueTitlesAux_eq]
    congr 1
    apply (List.filter_eq_self).mpr
    intro a _
    rfl
  · intro activeEvents allEvents
    refine ⟨rfl, fun t => ?_⟩
    simp [ExtractAlerts, differenceTitles, List.mem_filter]

-- ## Token cache expiry (C1)

/-- The expiry offset computed by getOrRefreshToken, in seconds: the
provider-reported lifetime, less a 5-minute margin only when the lifetime
strictly exceeds 5 minutes (collector.go lines 76-81; the Go comparison on
nanosecond Durations is equivalent to this comparison on whole seconds). -/
def cacheExpiryOffset (expiresIn : ℤ) : ℤ :=
  if 300 < expiresIn then expiresIn - 300 else expiresIn

/-- The cached expiry instant: the issue time plus the offset. -/
def tokenExpiresAt (issueTime expiresIn : ℤ) : ℤ :=
  issueTime + cacheExpiryOffset expiresIn

/-- The expiry instant in the words of the specification's claim: issue
time plus lifetime minus the 5-minute margin, floored at the issue time. -/
def specTokenExpiresAt (issueTime expiresIn : ℤ) : ℤ :=
  max (issueTime + expiresIn - 300) issueTime

/-- Claim C1, counterexample: for a reported lifetime of 60 seconds the
code keeps the full lifetime (expiry = issue + 60), while the claim floors
the expiry at the issue time itself (expiry = issue). -/
theorem tokenExpiry_claim_false :
    tokenExpiresAt 0 60 = 60 ∧ specTokenExpiresAt 0 60 = 0 ∧
    tokenExpiresAt 0 60 ≠ specTokenExpiresAt 0 60 := by
  refine ⟨rfl, rfl, ?_⟩
  decide

/-- Claim C1, amended: the cached expiry is issue time plus lifetime minus
the 5-minute margin when the lifetime strictly exceeds 5 minutes; a
lifetime of 5 minutes or less is kept in full (expiry = issue time +
lifetime), not floored at the issue time. -/
theorem tokenExpiry_rule (issueTime expiresIn : ℤ) :
    (300 < expiresIn → tokenExpiresAt issueTime expiresIn =
      issueTime + expiresIn - 300) ∧
    (expiresIn ≤ 300 → tokenExpiresAt issueTime expiresIn =
      issueTime + expiresIn) := by
  constructor
  · intro h
    rw [tokenExpiresAt, cacheExpiryOffset, if_pos h]
    ring
  · intro h
    rw [tokenExpiresAt, cacheExpiryOffset, if_neg (not_lt.mpr h)]

/-- Witness for C1 (amended rule): a one-hour lifetime loses the margin,
a one-minute lifetime is kept whole. -/
theorem tokenExpiry_rule_witness :
    tokenExpiresAt 0 3600 = 3300 ∧ tokenExpiresAt 0 60 = 60 :=
  ⟨((tokenExpiry_rule 0 3600).1 (by decide)).trans (by decide),
   ((tokenExpiry_rule 0 60).2 (by decide)).trans (by decide)⟩

-- ## Browser-flow authentication control flow (C8)

/-- The csrf token and transaction id delivered inside the SETTINGS blob
of the authorize response; the HTML/JSON extraction itself is an external
collaborator, so its outcome is an input of the model. -/
structure AuthSettings where
  csrf : String
  transId : String
deriving DecidableEq, Repr

/-- AuthResult from the auth package. -/
structure AuthResultData where
  AccessToken : String
  RefreshToken : String
  ExpiresIn : ℤ
deriving DecidableEq, Repr

/-- The four provider endpoints the flow can call, in the order
Authenticate reaches them. -/
inductive AuthStep where
  | authorize
  | selfAsserted
  | confirming
  | tokenExchange
deriving DecidableEq, Repr

/-- The failure modes of the authentication flow. -/
inductive AuthErr where
  | protocolShape
  | malformedState
  | invalidCredentials
  | noAuthorizationCode
  | tokenEndpoint
  | emptyToken
deriving DecidableEq, Repr

/-- The upstream responses one run of Authenticate can observe, with each
HTTP collaborator abstracted to the datum the Go code inspects. -/
structure AuthEnv where
  settings : Option AuthSettings
  authorizeFinalQuery : List (String × String)
  selfAssertedOk : Bool
  confirmCode : Option String
  exchangeStatus200 : Bool
  exchangeAccessToken : String
  exchangeRefreshToken : String
  exchangeExpiresIn : ℤ
deriving DecidableEq, Repr

/-- Go url.Values.Get: the first value bound to the key, or the empty
string. -/
def queryGet (q : List (String × String)) (k : String) : String :=
  match q.find? (fun kv => kv.1 == k) with
  | some kv => kv.2
  | none => ""

/-- Go strings.Split on the separator character, on character lists. -/
def splitEqChar : List Char → List (List Char)
  | [] => [[]]
  | c :: cs =>
    match splitEqChar cs with
    | [] => [[]]
    | y :: ys => if c == '=' then [] :: y :: ys else (c :: y) :: ys

/-- Go strings.Split(transId, "="). -/
def splitEq (s : String) : List String := (splitEqChar s.data).map String.mk

/-- The intermediate authState of the auth package (cookies omitted: they
are opaque to every decision taken by the flow). -/
structure AuthState where
  Code : String
  CSRF : String
  StateProps : String
deriving DecidableEq, Repr

/-- startAuthorize from the auth package: fail when the SETTINGS blob is
absent, fail when the transaction id does not split into exactly two parts
on the equals sign, and otherwise report whether the final URL already
carried a code (the Boolean stands for Go's errNeedSelfAsserted
sentinel: true means the self-asserted step is still needed). -/
def startAuthorize (env : AuthEnv) : Except AuthErr (AuthState × Bool) :=
  match env.settings with
  | none => .error .protocolShape
  | some st =>
    match splitEq st.transId with
    | [_, props] =>
      if queryGet env.authorizeFinalQuery "code" != "" then
        .ok ({ Code := queryGet env.authorizeFinalQuery "code",
               CSRF := st.csrf, StateProps := props }, false)
      else
        .ok ({ Code := "", CSRF := st.csrf, StateProps := props }, true)
    | _ => .error .malformedState

/-- exchangeCode from the auth package: non-200 is fatal, an empty access
token is fatal, otherwise the token triple is returned. -/
def exchangeCode (env : AuthEnv) : Except AuthErr AuthResultData :=
  if !env.exchangeStatus200 then .error .tokenEndpoint
  else if env.exchangeAccessToken == "" then .error .emptyToken
  else .ok { AccessToken := env.exchangeAccessToken,
             RefreshToken := env.exchangeRefreshToken,
             ExpiresIn := env.exchangeExpiresIn }

/-- Authenticate from the auth package, paired with the trace of endpoint
steps the run performs: authorize always; self-asserted and confirm only
when startAuthorize signalled the need; token exchange whenever a code is
in hand. -/
def Authenticate (env : AuthEnv) :
    Except AuthErr AuthResultData × List AuthStep :=
  match startAuthorize env with
  | .error e => (.error e, [.authorize])
  | .ok (_, needSelf) =>
    if needSelf then
      if !env.selfAssertedOk then
        (.error .invalidCredentials, [.authorize, .selfAsserted])
      else
        match env.confirmCode with
        | none => (.error .noAuthorizationCode,
                   [.authorize, .selfAsserted, .confirming])
        | some _ => (exchangeCode env,
                     [.authorize, .selfAsserted, .confirming, .tokenExchange])
    else
      (exchangeCode env, [.authorize, .tokenExchange])

/-- Claim C8: when the authorize response's final URL already carries a
non-empty code parameter (and the settings parse succeeds), the run goes
straight to the token exchange: the self-asserted and confirming endpoints
are never invoked. -/
theorem auth_short_circuit (env : AuthEnv) (st : AuthSettings)
    (hs : env.settings = some st)
    (hsplit : ∃ a b, splitEq st.transId = [a, b])
    (hcode : queryGet env.authorizeFinalQuery "code" ≠ "") :
    AuthStep.selfAsserted ∉ (Authenticate env).2 ∧
    AuthStep.confirming ∉ (Authenticate env).2 ∧
    AuthStep.tokenExchange ∈ (Authenticate env).2 := by
  obtain ⟨a, b, hab⟩ := hsplit
  have hq : (queryGet env.authorizeFinalQuery "code" != "") = true :=
    bne_iff_ne.mpr hcode
  unfold Authenticate startAuthorize
  simp [hs, hab, hq]

/-- A run of the flow in which the user session is already valid: the
final authorize URL carries a code. -/
def authDemoEnv : AuthEnv :=
  { settings := some { csrf := "tok", transId := "StateProperties=abc" },
    authorizeFinalQuery := [("code", "xyz")],
    selfAssertedOk := true,
    confirmCode := none,
    exchangeStatus200 := true,
    exchangeAccessToken := "at",
    exchangeRefreshToken := "rt",
    exchangeExpiresIn := 3600 }

/-- Witness for C8: on the demo environment the trace avoids the
self-asserted and confirming endpoints and reaches the token exchange. -/
theorem auth_short_circuit_witness :
    AuthStep.selfAsserted ∉ (Authenticate authDemoEnv).2 ∧
    AuthStep.confirming ∉ (Authenticate authDemoEnv).2 ∧
    AuthStep.tokenExchange ∈ (Authenticate authDemoEnv).2 :=
  auth_short_circuit authDemoEnv { csrf := "tok", transId := "StateProperties=abc" }
    rfl ⟨"StateProperties", "abc", by decide⟩ (by decide)

-- ## Token cache concurrency (C6)

/-- The program counter of one scrape caller inside getOrRefreshToken: it
has not yet performed the shared-lock check, or it saw a miss and is
waiting for the exclusive lock, or it returned a token of the recorded
generation. -/
inductive TPC where
  | start
  | wantWrite
  | done (gen : Nat)
deriving DecidableEq, Repr

/-- The shared token-cache state in the race of claim C6: valid is the
double-checked condition (token present and now before expiry) with the
clock frozen inside one expiry cycle, so authentication succeeds and the
refreshed token stays valid for the duration of the race; authCalls
counts Authenticate invocations; each caller carries a program counter,
and a finished caller records the generation of the token it returned
(the value of authCalls at its return, generation 0 being the stale
token, which no caller ever returns here). -/
structure CacheSys where
  valid : Bool
  authCalls : Nat
  threads : List TPC
deriving DecidableEq, Repr

/-- One atomic step of the race. Each constructor is one lock-protected
critical section of getOrRefreshToken, serialized by the RWMutex: the
shared-lock check (hit or miss, collector.go lines 47-55), and the
exclusive-lock re-check that either reuses the refreshed token or
performs the single authentication and overwrites the cache (lines
58-86). -/
inductive CacheStep : CacheSys → CacheSys → Prop where
  | readHit (s : CacheSys) (i : Nat) :
      s.threads[i]? = some .start → s.valid = true →
      CacheStep s { s with threads := s.threads.set i (.done s.authCalls) }
  | readMiss (s : CacheSys) (i : Nat) :
      s.threads[i]? = some .start → s.valid = false →
      CacheStep s { s with threads := s.threads.set i .wantWrite }
  | writeHit (s : CacheSys) (i : Nat) :
      s.threads[i]? = some .wantWrite → s.valid = true →
      CacheStep s { s with threads := s.threads.set i (.done s.authCalls) }
  | writeAuth (s : CacheSys) (i : Nat) :
      s.threads[i]? = some .wantWrite → s.valid = false →
      CacheStep s { s with valid := true, authCalls := s.authCalls + 1,
                           threads := s.threads.set i (.done (s.authCalls + 1)) }

/-- Finitely many interleaved atomic steps. -/
inductive CacheSteps : CacheSys → CacheSys → Prop where
  | refl (s : CacheSys) : CacheSteps s s
  | tail (s t u : CacheSys) : CacheSteps s t → CacheStep t u → CacheSteps s u

/-- N concurrent scrape callers arriving while the cached token is
expired or missing. -/
def initSys (n : Nat) : CacheSys :=
  { valid := false, authCalls := 0, threads := List.replicate n .start }

/-- Every caller has returned. -/
def allDone (s : CacheSys) : Prop := ∀ pc ∈ s.threads, ∃ g, pc = TPC.done g

/-- The inductive invariant of the race: the cache is valid exactly after
the single authentication, at most one authentication ever happens, every
finished caller holds the generation-1 token (and could only finish once
the cache was valid), and the number of callers is constant. -/
def CacheInv (n : Nat) (s : CacheSys) : Prop :=
  (s.valid = true ↔ s.authCalls = 1) ∧ s.authCalls ≤ 1 ∧
  (∀ g, TPC.done g ∈ s.threads → g = 1 ∧ s.valid = true) ∧
  s.threads.length = n

theorem cacheStep_inv {n : Nat} {s t : CacheSys} (hst : CacheStep s t)
    (h : CacheInv n s) : CacheInv n t := by
  obtain ⟨hiff, hle, hdone, hlen⟩ := h
  cases hst with
  | readHit i hi hv =>
    refine ⟨hiff, hle, ?_, by simp [hlen]⟩
    intro g hg
    rcases List.mem_or_eq_of_mem_set hg with hmem | heq
    · exact hdone g hmem
    · obtain rfl : g = s.authCalls := by injection heq
      exact ⟨hiff.mp hv, hv⟩
  | readMiss i hi hv =>
    refine ⟨hiff, hle, ?_, by simp [hlen]⟩
    intro g hg
    rcases List.mem_or_eq_of_mem_set hg with hmem | heq
    · exact hdone g hmem
    · exact TPC.noConfusion heq
  | writeHit i hi hv =>
    refine ⟨hiff, hle, ?_, by simp [hlen]⟩
    intro g hg
    rcases List.mem_or_eq_of_mem_set hg with hmem | heq
    · exact hdone g hmem
    · obtain rfl : g = s.authCalls := by injection heq
      exact ⟨hiff.mp hv, hv⟩
  | writeAuth i hi hv =>
    have hc0 : s.authCalls = 0 := by
      have h1 : ¬ s.authCalls = 1 := by
        intro h1
        rw [hiff.mpr h1] at hv
        simp at hv
      omega
    refine ⟨by simp [hc0], by simp [hc0], ?_, by simp [hlen]⟩
    intro g hg
    rcases List.mem_or_eq_of_mem_set hg with hmem | heq
    · exact absurd (hdone g hmem).2 (by simp [hv])
    · obtain rfl : g = s.authCalls + 1 := by injection heq
      exact ⟨by simp [hc0], rfl⟩

theorem cacheSteps_inv {n : Nat} {s t : CacheSys} (hst : CacheSteps s t)
    (h : CacheInv n s) : CacheInv n t := by
  induction hst with
  | refl => exact h
  | tail _ _ hsteps hstep ih => exact cacheStep_inv hstep ih

theorem initSys_inv (n : Nat) : CacheInv n (initSys n) := by
  refine ⟨by simp [initSys], by simp [initSys], ?_, by simp [initSys]⟩
  intro g hg
  exact TPC.noConfusion (List.eq_of_mem_replicate hg)

/-- Claim C6: in every complete interleaving of N concurrent callers that
all start against an expired cache, exactly one authentication attempt is
made, and every caller returns the token produced by that single
refresh. -/
theorem tokenCache_single_auth (n : Nat) (s : CacheSys)
    (hsteps : CacheSteps (initSys n) s) (hdone : allDone s) (hn : 1 ≤ n) :
    s.authCalls = 1 ∧ ∀ g, TPC.done g ∈ s.threads → g = 1 := by
  obtain ⟨hiff, hle, hdG, hlen⟩ := cacheSteps_inv hsteps (initSys_inv n)
  have hne : s.threads ≠ [] := by
    intro h0
    rw [h0] at hlen
    simp at hlen
    omega
  obtain ⟨pc, hpc⟩ := List.exists_mem_of_ne_nil s.threads hne
  obtain ⟨g, rfl⟩ := hdone pc hpc
  exact ⟨hiff.mp (hdG g hpc).2, fun g2 hg2 => (hdG g2 hg2).1⟩

def cacheDemoS1 : CacheSys :=
  { valid := false, authCalls := 0, threads := [.wantWrite, .start] }

def cacheDemoS2 : CacheSys :=
  { valid := false, authCalls := 0, threads := [.wantWrite, .wantWrite] }

def cacheDemoS3 : CacheSys :=
  { valid := true, authCalls := 1, threads := [.done 1, .wantWrite] }

def cacheDemoFinal : CacheSys :=
  { valid := true, authCalls := 1, threads := [.done 1, .done 1] }

/-- Witness for C6: two callers both miss under the shared lock, the
first authenticates under the exclusive lock, the second re-checks and
reuses the result; the complete run performs exactly one authentication. -/
theorem tokenCache_single_auth_witness : cacheDemoFinal.authCalls = 1 :=
  (tokenCache_single_auth 2 cacheDemoFinal
    (CacheSteps.tail (initSys 2) cacheDemoS3 cacheDemoFinal
      (CacheSteps.tail (initSys 2) cacheDemoS2 cacheDemoS3
        (CacheSteps.tail (initSys 2) cacheDemoS1 cacheDemoS2
          (CacheSteps.tail (initSys 2) (initSys 2) cacheDemoS1
            (CacheSteps.refl (initSys 2))
            (CacheStep.readMiss (initSys 2) 0 rfl rfl))
          (CacheStep.readMiss cacheDemoS1 1 rfl rfl))
        (CacheStep.writeAuth cacheDemoS2 0 rfl rfl))
      (CacheStep.writeHit cacheDemoS3 1 rfl rfl))
    (by
      intro pc hpc
      simp [cacheDemoFinal] at hpc
      exact ⟨1, hpc⟩)
    (by decide)).1

end Thermia
